import Mathlib

/-!
Shallow embedding of the Infobserve `processor-rs` pipeline
(feeder → processor → loader) and proofs of the specification claims.

Conventions used throughout:
* Rust `usize`/`u32`/`i32`/`i64` become `Nat`/`Int` with explicit wrapping
  (`% 2 ^ w`) at the points where the Rust code performs a cast or a
  wrapping increment.
* Rust byte strings (`Vec<u8>`, `&[u8]`) become `List Nat` (each entry a
  byte value `< 256`); a Rust `String`/`&str` whose content matters only as
  text becomes a Lean `String`.
* External collaborators (the YARA engine, the postgres store, the YAML
  scanner, the filesystem walk, wall-clock time, channel send failures)
  are parameters/oracles supplied to the embedded functions; the embedded
  control flow itself is translated line by line from the Rust source.
-/

/-- Byte strings (`Vec<u8>` in the Rust source): a list of byte values. -/
abbrev ByteStr := List Nat

/-- Membership of a byte in the UTF-8 continuation range `0x80..=0xBF`. -/
def contByte (b : Nat) : Bool := 128 ≤ b && b ≤ 191

/-- UTF-8 validity of a byte sequence, exactly the acceptance condition of
Rust `str::from_utf8` (RFC 3629: no overlong encodings, no surrogate code
points, nothing above `U+10FFFF`). `str::from_utf8` returns `Ok` on a byte
slice iff this validator accepts its bytes. -/
def validUtf8 : ByteStr → Bool
  | [] => true
  | b :: rest =>
    if b ≤ 0x7F then validUtf8 rest
    else if b < 0xC2 then false
    else if b ≤ 0xDF then
      match rest with
      | b1 :: r => contByte b1 && validUtf8 r
      | [] => false
    else if b ≤ 0xEF then
      match rest with
      | b1 :: b2 :: r =>
        (if b = 0xE0 then decide (0xA0 ≤ b1 ∧ b1 ≤ 0xBF)
         else if b = 0xED then decide (0x80 ≤ b1 ∧ b1 ≤ 0x9F)
         else contByte b1) && contByte b2 && validUtf8 r
      | _ => false
    else if b ≤ 0xF4 then
      match rest with
      | b1 :: b2 :: b3 :: r =>
        (if b = 0xF0 then decide (0x90 ≤ b1 ∧ b1 ≤ 0xBF)
         else if b = 0xF4 then decide (0x80 ≤ b1 ∧ b1 ≤ 0x8F)
         else contByte b1) && contByte b2 && contByte b3 && validUtf8 r
      | _ => false
    else false

/-- `entities/flat_match.rs`: the flat representation of one YARA rule
firing. `data` holds the byte content of the stored Rust `String`s (a Rust
`String` produced by `str::from_utf8` is exactly the validated bytes). -/
structure FlatMatch where
  rule_name : String
  tags : List String
  data : List ByteStr
  deriving Repr, DecidableEq

/-- Loop body of `FlatMatch::new`: push each fragment that passes
`str::from_utf8`, drop (with a logged warning) each fragment that fails. -/
def flatMatchData : List ByteStr → List ByteStr
  | [] => []
  | m :: rest =>
    if validUtf8 m then m :: flatMatchData rest
    else
      -- error!("Could not convert byte array ... into string ...")
      flatMatchData rest

/-- `FlatMatch::new` from `entities/flat_match.rs`: converts the raw byte
fragments of one match into stored strings, dropping invalid UTF-8. -/
def FlatMatch.new (rule_name : String) (tags : List String)
    («matches» : List ByteStr) : FlatMatch :=
  { rule_name := rule_name, tags := tags, data := flatMatchData «matches» }

/-- Model of `yara::Match` (field `data`: the matched bytes). -/
structure YrMatch where
  data : ByteStr
  deriving Repr, DecidableEq

/-- Model of `yara::YrString` (field `matches`). -/
structure YrString where
  «matches» : List YrMatch
  deriving Repr, DecidableEq

/-- Model of `yara::Rule` as consumed by `FlatMatch::from_rule`. -/
structure YrRule where
  namespaceName : String
  identifier : String
  tags : List String
  strings : List YrString
  deriving Repr, DecidableEq

/-- Inner loop of `FlatMatch::from_rule`: flatten the per-string match sets
into one byte-fragment list (strings with an empty match set are skipped,
which adds nothing anyway). -/
def collectByteData : List YrString → List ByteStr
  | [] => []
  | s :: rest =>
    if s.«matches».isEmpty then collectByteData rest
    else s.«matches».map YrMatch.data ++ collectByteData rest

/-- `FlatMatch::from_rule` from `entities/flat_match.rs`. -/
def FlatMatch.from_rule (rule : YrRule) : FlatMatch :=
  FlatMatch.new (rule.namespaceName ++ "::" ++ rule.identifier) rule.tags
    (collectByteData rule.strings)

/-- `FlatMatch::from_rules` from `entities/flat_match.rs`. -/
def FlatMatch.from_rules (rules : List YrRule) : List FlatMatch :=
  rules.map FlatMatch.from_rule

/-! ### chrono timestamp parsing (`DateTime::parse_from_str`)

`entities/event.rs` parses `created_at` / `discovered_at` with
`DateTime::parse_from_str(&c, DATETIME_FMT)` where
`DATETIME_FMT = "%Y/%m/%d-%H:%M:%S"`. `DateTime::parse_from_str` is the
inherent method of `chrono::DateTime<FixedOffset>`: it scans the text
against the strftime items of the format and then calls
`Parsed::to_datetime`, which requires a UTC offset to have been parsed and
otherwise fails with `ParseError(NotEnough)`. The model below reproduces
that two-phase behaviour. -/

/-- Kinds of `chrono::ParseError`. -/
inductive ChronoParseError
  | outOfRange
  | impossible
  | notEnough
  | invalid
  | tooShort
  | tooLong
  | badFormat
  deriving Repr, DecidableEq

/-- The strftime items relevant to this code base. `tzOffset` stands for
the offset-setting items (`%z`, `%:z`, `%#z`); `DATETIME_FMT` contains no
such item. -/
inductive FmtItem
  | lit (c : Char)
  | year
  | month
  | day
  | hour
  | minute
  | second
  | tzOffset
  deriving Repr, DecidableEq

/-- The item sequence of the format string `"%Y/%m/%d-%H:%M:%S"`
(`DATETIME_FMT` in `entities/event.rs`). -/
def DATETIME_FMT : List FmtItem :=
  [.year, .lit '/', .month, .lit '/', .day, .lit '-',
   .hour, .lit ':', .minute, .lit ':', .second]

/-- ASCII digit test on a character. -/
def isDigitChar (c : Char) : Bool := 48 ≤ c.toNat && c.toNat ≤ 57

/-- Consume up to `maxw` leading ASCII digits. -/
def takeDigits : Nat → List Char → (List Char × List Char)
  | _, [] => ([], [])
  | 0, s => ([], s)
  | maxw + 1, c :: s =>
    if isDigitChar c then
      let (ds, r) := takeDigits maxw s
      (c :: ds, r)
    else ([], c :: s)

/-- Numeric value of a digit string. -/
def digitsToNat (ds : List Char) : Nat :=
  ds.foldl (fun a c => a * 10 + (c.toNat - 48)) 0

/-- Model of chrono `scan::number`: at least one digit, at most `maxw`. -/
def scanNumber (maxw : Nat) (s : List Char) :
    Except ChronoParseError (Nat × List Char) :=
  match takeDigits maxw s with
  | ([], []) => .error .tooShort
  | ([], _ :: _) => .error .invalid
  | (ds, r) => .ok (digitsToNat ds, r)

/-- Model of `chrono::format::Parsed`: the fields filled while scanning.
Only the fields settable by the items above are kept. -/
structure ChronoParsed where
  year : Option Nat := none
  month : Option Nat := none
  day : Option Nat := none
  hour : Option Nat := none
  minute : Option Nat := none
  second : Option Nat := none
  offset : Option Int := none
  deriving Repr, DecidableEq

/-- Scanning loop of chrono `format::parse`: consume the input according to
the item list, filling the `Parsed` fields. Only `tzOffset` items set
`Parsed.offset`. -/
def parseItems :
    List FmtItem → List Char → ChronoParsed →
      Except ChronoParseError (ChronoParsed × List Char)
  | [], s, p => .ok (p, s)
  | .lit c :: items, s, p =>
    match s with
    | [] => .error .tooShort
    | c0 :: s' => if c0 = c then parseItems items s' p else .error .invalid
  | .year :: items, s, p =>
    match scanNumber 4 s with
    | .error e => .error e
    | .ok (v, s') => parseItems items s' { p with year := some v }
  | .month :: items, s, p =>
    match scanNumber 2 s with
    | .error e => .error e
    | .ok (v, s') => parseItems items s' { p with month := some v }
  | .day :: items, s, p =>
    match scanNumber 2 s with
    | .error e => .error e
    | .ok (v, s') => parseItems items s' { p with day := some v }
  | .hour :: items, s, p =>
    match scanNumber 2 s with
    | .error e => .error e
    | .ok (v, s') => parseItems items s' { p with hour := some v }
  | .minute :: items, s, p =>
    match scanNumber 2 s with
    | .error e => .error e
    | .ok (v, s') => parseItems items s' { p with minute := some v }
  | .second :: items, s, p =>
    match scanNumber 2 s with
    | .error e => .error e
    | .ok (v, s') => parseItems items s' { p with second := some v }
  | .tzOffset :: items, s, p =>
    match s with
    | [] => .error .tooShort
    | c0 :: s' =>
      if c0 = '+' ∨ c0 = '-' then
        match scanNumber 2 s' with
        | .error e => .error e
        | .ok (h, s1) =>
          let s2 := match s1 with
            | ':' :: t => t
            | t => t
          match scanNumber 2 s2 with
          | .error e => .error e
          | .ok (m, s3) =>
            let secs : Int := (h * 3600 + m * 60 : Nat)
            parseItems items s3
              { p with offset := some (if c0 = '-' then -secs else secs) }
      else .error .invalid

/-- Result type of a successful `DateTime<FixedOffset>` parse. The source
immediately converts it with `.into()` to `DateTime<Local>`; the conversion
preserves the instant, so we keep the parsed representation for both. -/
structure DateTimeFixed where
  year : Nat
  month : Nat
  day : Nat
  hour : Nat
  minute : Nat
  second : Nat
  offset : Int
  deriving Repr, DecidableEq

/-- `DateTime<Local>` values; see `DateTimeFixed`. -/
abbrev DateTimeLocal := DateTimeFixed

/-- Model of `chrono::format::Parsed::to_datetime`: building a
`DateTime<FixedOffset>` demands a parsed UTC offset; without one it fails
with `ParseError(NotEnough)`. -/
def ChronoParsed.to_datetime (p : ChronoParsed) :
    Except ChronoParseError DateTimeFixed :=
  match p.offset with
  | none => .error .notEnough
  | some off =>
    match p.year, p.month, p.day, p.hour, p.minute, p.second with
    | some y, some mo, some d, some h, some mi, some s =>
      if 1 ≤ mo ∧ mo ≤ 12 ∧ 1 ≤ d ∧ d ≤ 31 ∧ h ≤ 23 ∧ mi ≤ 59 ∧ s ≤ 60 then
        .ok ⟨y, mo, d, h, mi, s, off⟩
      else .error .outOfRange
    | _, _, _, _, _, _ => .error .notEnough

/-- Model of `chrono::DateTime::<FixedOffset>::parse_from_str`: scan the
whole input against the format items (left-over input is `TooLong`), then
`Parsed::to_datetime`. -/
def DateTime.parse_from_str (s : String) (fmt : List FmtItem) :
    Except ChronoParseError DateTimeFixed :=
  match parseItems fmt s.data {} with
  | .error e => .error e
  | .ok (p, rest) =>
    if rest.isEmpty then p.to_datetime else .error .tooLong

/-! ### JSON values and envelope decoding (`entities/event.rs`) -/

/-- Model of `serde_json::Value` after parsing: the decoder in
`Event::from_json_str` first runs `serde_json::from_str` (an external
parser) and then only inspects the resulting value, which is what the
functions below embed. `jfloat` stands for non-integer JSON numbers. -/
inductive JValue
  | jnull
  | jbool (b : Bool)
  | jint (n : Int)
  | jfloat (q : Rat)
  | jstr (s : String)
  | jarr (xs : List JValue)
  | jobj (fields : List (String × JValue))

/-- Lookup of a key in a JSON object's field list. -/
def jlookup (k : String) : List (String × JValue) → JValue
  | [] => .jnull
  | (k', v) :: rest => if k' = k then v else jlookup k rest

/-- `serde_json::Value` indexing `json[field_name]`: `Null` when the value
is not an object or the key is missing. -/
def JValue.index (j : JValue) (k : String) : JValue :=
  match j with
  | .jobj fields => jlookup k fields
  | _ => .jnull

/-- `Value::as_str`: `Some` exactly for JSON strings. -/
def JValue.as_str (j : JValue) : Option String :=
  match j with
  | .jstr s => some s
  | _ => none

/-- `Value::as_i64`: `Some` exactly for integer numbers representable in
`i64` (negative integers included). -/
def JValue.as_i64 (j : JValue) : Option Int :=
  match j with
  | .jint n => if -(2 ^ 63) ≤ n ∧ n ≤ 2 ^ 63 - 1 then some n else none
  | _ => none

/-- Decode errors produced by `Event::from_json_str` after the JSON text
has been parsed: `DeserializationError::NoValueError(field)` or a chrono
parse error propagated by `?`. -/
inductive DecodeError
  | noValue (field : String)
  | chronoParse (e : ChronoParseError)
  deriving Repr, DecidableEq

/-- `entities/event.rs`: the Event entity. `size` is a `usize`. -/
structure Event where
  id : Option Int := none
  url : String
  size : Nat
  source : String
  raw_content : String
  filename : String
  creator : String
  created_at : DateTimeLocal
  discovered_at : DateTimeLocal
  deriving Repr, DecidableEq

/-- `Event::create` from `entities/event.rs`. -/
def Event.create (id : Option Int) (url : String) (size : Nat)
    (source raw_content filename creator : String)
    (created_at discovered_at : DateTimeLocal) : Event :=
  { id := id, url := url, size := size, source := source,
    raw_content := raw_content, filename := filename, creator := creator,
    created_at := created_at, discovered_at := discovered_at }

/-- `Event::new` from `entities/event.rs` (id unset). -/
def Event.new (url : String) (size : Nat)
    (source raw_content filename creator : String)
    (created_at discovered_at : DateTimeLocal) : Event :=
  Event.create none url size source raw_content filename creator
    created_at discovered_at

/-- `Event::get_str` from `entities/event.rs`. -/
def Event.get_str (json : JValue) (field_name : String) :
    Except DecodeError String :=
  match (json.index field_name).as_str with
  | some u => .ok u
  | none => .error (.noValue field_name)

/-- `Event::get_i64` from `entities/event.rs`: note that it accepts any
`i64`, negative values included. -/
def Event.get_i64 (json : JValue) (field_name : String) :
    Except DecodeError Int :=
  match (json.index field_name).as_i64 with
  | some u => .ok u
  | none => .error (.noValue field_name)

/-- The Rust cast `i64 as usize`: two's-complement wrap into `0..2^64`. -/
def i64AsUsize (n : Int) : Nat := (n.emod (2 ^ 64)).toNat

/-- `Event::from_json_str` from `entities/event.rs`, after the
`serde_json::from_str` step: field extraction in source order, with each
`?` modelled as an early `.error` return. -/
def Event.from_json (json : JValue) : Except DecodeError Event :=
  match Event.get_str json "url" with
  | .error e => .error e
  | .ok url =>
  match Event.get_i64 json "size" with
  | .error e => .error e
  | .ok sizeI =>
  match Event.get_str json "source" with
  | .error e => .error e
  | .ok source =>
  match Event.get_str json "raw_content" with
  | .error e => .error e
  | .ok raw_content =>
  match Event.get_str json "filename" with
  | .error e => .error e
  | .ok filename =>
  match Event.get_str json "creator" with
  | .error e => .error e
  | .ok creator =>
  match Event.get_str json "created_at" with
  | .error e => .error e
  | .ok c =>
  match DateTime.parse_from_str c DATETIME_FMT with
  | .error e => .error (.chronoParse e)
  | .ok created_at =>
  match Event.get_str json "discovered_at" with
  | .error e => .error e
  | .ok c' =>
  match DateTime.parse_from_str c' DATETIME_FMT with
  | .error e => .error (.chronoParse e)
  | .ok discovered_at =>
    .ok (Event.new url (i64AsUsize sizeI) source raw_content filename
      creator created_at discovered_at)

/-- Boolean test that an `Except` is an error. -/
def exceptIsErr {ε α : Type} : Except ε α → Bool
  | .error _ => true
  | .ok _ => false

/-- A JSON payload with every required field present and well formed:
all required strings, a non-negative integer `size`, and both timestamps
in the exact `YYYY/MM/DD-HH:MM:SS` format. -/
def wellFormedPayload : JValue :=
  .jobj
    [("url", .jstr "https://pastebin.com/abc"),
     ("size", .jint 550),
     ("source", .jstr "pastebin"),
     ("raw_content", .jstr "pw: hunter2"),
     ("filename", .jstr "creds.txt"),
     ("creator", .jstr "someone"),
     ("created_at", .jstr "2021/05/01-12:30:00"),
     ("discovered_at", .jstr "2021/05/01-12:35:10")]

/-- A JSON payload identical to `wellFormedPayload` except that its `size`
field is the negative integer `-1`. -/
def negSizePayload : JValue :=
  .jobj
    [("url", .jstr "https://pastebin.com/abc"),
     ("size", .jint (-1)),
     ("source", .jstr "pastebin"),
     ("raw_content", .jstr "pw: hunter2"),
     ("filename", .jstr "creds.txt"),
     ("creator", .jstr "someone"),
     ("created_at", .jstr "2021/05/01-12:30:00"),
     ("discovered_at", .jstr "2021/05/01-12:35:10")]

/-! ### Processor workers (`processing.rs`) -/

/-- `entities/processed_event.rs`: `ProcessedEvent(pub Event, pub Vec<FlatMatch>)`.
Field `event` is component `.0`, field `matches` component `.1`. -/
structure ProcessedEvent where
  event : Event
  «matches» : List FlatMatch
  deriving Repr, DecidableEq

/-- Abstract YARA engine errors (`yara::YaraError`). -/
structure YaraError where
  code : Nat
  deriving Repr, DecidableEq

/-- Modulus of the `u32` statistics counters. -/
def U32_MOD : Nat := 2 ^ 32

/-- `processing.rs` `Stats`: per-worker counters. The three counters are
`u32` (so `+= 1` wraps at `2 ^ 32`); `overall_proc_time` is the cumulative
duration, kept here in nanoseconds. -/
structure Stats where
  overall_proc_time : Nat
  num_events : Nat
  num_matches : Nat
  num_failures : Nat
  deriving Repr, DecidableEq

/-- `Stats::new`. -/
def Stats.new : Stats :=
  { overall_proc_time := 0, num_events := 0, num_matches := 0, num_failures := 0 }

/-- `Stats::add_duration`. -/
def Stats.add_duration (s : Stats) (elapsed : Nat) : Stats :=
  { s with overall_proc_time := s.overall_proc_time + elapsed }

/-- `Stats::inc_events` (`self.num_events += 1`, wrapping `u32`). -/
def Stats.inc_events (s : Stats) : Stats :=
  { s with num_events := (s.num_events + 1) % U32_MOD }

/-- `Stats::inc_matches`. -/
def Stats.inc_matches (s : Stats) : Stats :=
  { s with num_matches := (s.num_matches + 1) % U32_MOD }

/-- `Stats::inc_failures`. -/
def Stats.inc_failures (s : Stats) : Stats :=
  { s with num_failures := (s.num_failures + 1) % U32_MOD }

/-- `Stats::avg_proc_time`: zero when no event was processed. -/
def Stats.avg_proc_time (s : Stats) : Nat :=
  if s.num_events = 0 then 0 else s.overall_proc_time / s.num_events

/-- The worker loop of `process_forever` in `processing.rs`, run over the
finite sequence of events this worker receives from the feed-queue before
its sender is dropped. External effects are oracles: `scan` is the compiled
matcher's `p.process(message.raw_content())`; `sendOk t` says whether the
`t`-th `load_sendr.send` succeeds (a send fails when the receiver side is
closed); `elapsed i` is the wall-clock duration measured for the `i`-th
event. Returns the final `Stats` together with the list of ProcessedEvents
actually delivered to the load-queue, in send order. -/
def process_forever (scan : String → Except YaraError (List FlatMatch))
    (sendOk : Nat → Bool) (elapsed : Nat → Nat) :
    List Event → Stats → Nat → Nat → Stats × List ProcessedEvent
  | [], stats, _, _ => (stats, [])
  | message :: rest, stats, i, t =>
    let stats1 := stats.inc_events
    match scan message.raw_content with
    | .ok m =>
      if m.isEmpty then
        -- no match: the event is dropped silently, nothing is sent
        process_forever scan sendOk elapsed rest
          (stats1.add_duration (elapsed i)) (i + 1) t
      else
        let stats2 := stats1.inc_matches
        if sendOk t then
          let res := process_forever scan sendOk elapsed rest
            (stats2.add_duration (elapsed i)) (i + 1) (t + 1)
          (res.1, ⟨message, m⟩ :: res.2)
        else
          -- error!("Failed to send processed event: ...")
          process_forever scan sendOk elapsed rest
            ((stats2.inc_failures).add_duration (elapsed i)) (i + 1) (t + 1)
    | .error _ =>
      -- println!("Whoops: ...")
      process_forever scan sendOk elapsed rest
        (stats1.add_duration (elapsed i)) (i + 1) t

/-- One processor worker's external inputs for a whole run. -/
structure WorkerRun where
  scan : String → Except YaraError (List FlatMatch)
  sendOk : Nat → Bool
  elapsed : Nat → Nat
  events : List Event

/-- The Stats and sent ProcessedEvents of one worker's complete run
(the thread body starts from `Stats::new`). -/
def WorkerRun.result (w : WorkerRun) : Stats × List ProcessedEvent :=
  process_forever w.scan w.sendOk w.elapsed w.events Stats.new 0 0

/-- A concrete event for witnesses. -/
def sampleEvent : Event :=
  { url := "https://pastebin.com/abc", size := 14, source := "pastebin",
    raw_content := "pw: helloworld", filename := "creds.txt",
    creator := "someone", created_at := ⟨2021, 5, 1, 12, 30, 0, 0⟩,
    discovered_at := ⟨2021, 5, 1, 12, 35, 10, 0⟩ }

/-- A concrete FlatMatch for witnesses (`default::MyPass` matching
`"pw: helloworld"`). -/
def sampleFlatMatch : FlatMatch :=
  { rule_name := "default::MyPass", tags := [],
    data := [[112, 119, 58, 32, 104, 101, 108, 108, 111, 119, 111, 114,
              108, 100]] }

/-- A scan oracle that always reports the single sample match. -/
def oneMatchScan : String → Except YaraError (List FlatMatch) :=
  fun _ => .ok [sampleFlatMatch]

/-- A send oracle for which every send succeeds. -/
def allSendOk : Nat → Bool := fun _ => true

/-- A duration oracle measuring zero time. -/
def zeroElapsed : Nat → Nat := fun _ => 0

/-- A concrete event whose content matches no rule of `wrapScan`. -/
def noMatchEvent : Event :=
  { url := "https://pastebin.com/benign", size := 15, source := "pastebin",
    raw_content := "no secrets here", filename := "notes.txt",
    creator := "someone", created_at := ⟨2021, 5, 1, 12, 30, 0, 0⟩,
    discovered_at := ⟨2021, 5, 1, 12, 35, 10, 0⟩ }

/-- A scan oracle that reports the sample match exactly on the sample
event's content and no match otherwise. -/
def wrapScan : String → Except YaraError (List FlatMatch) :=
  fun s => if s = "pw: helloworld" then .ok [sampleFlatMatch] else .ok []

/-! ### Configuration (`config.rs`) -/

/-- The configuration/startup error enum (`crate::errors::ConfigurationError`).
Its variants are those constructed in `config.rs` and `processing.rs`
(`BadWorkersKeyValue`, `NegativeWorkersError`, `NoYaraRulesError`); the
spec's error taxonomy lists the same three. -/
inductive ConfigurationError
  | BadWorkersKeyValue (s : String)
  | NegativeWorkersError
  | NoYaraRulesError
  deriving Repr, DecidableEq

/-- Model of `yaml_rust::Yaml` values after scanning. -/
inductive Yaml
  | ystr (s : String)
  | yint (n : Int)
  | yreal (s : String)
  | ybool (b : Bool)
  | yarr (xs : List Yaml)
  | yhash (fields : List (Yaml × Yaml))
  | ynull
  | ybad

/-- Hash lookup with a string key: yaml_rust compares the key against
`Yaml::String(k)`, so only string keys can match. -/
def ylookup (k : String) : List (Yaml × Yaml) → Yaml
  | [] => .ybad
  | (key, v) :: rest =>
    match key with
    | .ystr s => if s = k then v else ylookup k rest
    | _ => ylookup k rest

/-- yaml_rust indexing `doc["k"]`: `BadValue` when the receiver is not a
hash or the key is absent. -/
def Yaml.index (y : Yaml) (k : String) : Yaml :=
  match y with
  | .yhash fields => ylookup k fields
  | _ => .ybad

/-- `Yaml::as_str`: `Some` exactly for YAML strings. -/
def Yaml.as_str (y : Yaml) : Option String :=
  match y with
  | .ystr s => some s
  | _ => none

/-- `Yaml::as_i64`: `Some` exactly for YAML integers. -/
def Yaml.as_i64 (y : Yaml) : Option Int :=
  match y with
  | .yint n => some n
  | _ => none

/-- Constants from the top of `config.rs`. -/
def DEFAULT_NUM_PROCESSORS : Int := 1

/-- Default feeder count. -/
def DEFAULT_NUM_FEEDERS : Int := 1

/-- Default loader count. -/
def DEFAULT_NUM_LOADERS : Int := 1

/-- Default rule-directory root. -/
def DEFAULT_YARA_RULE_DIR : String := "yara-rules/"

/-- `config.rs` `WorkerCfg` (counts are `i32`). -/
structure WorkerCfg where
  num_processors : Int
  num_feeders : Int
  num_loaders : Int
  deriving Repr, DecidableEq

/-- Modelled from the spec: `utils::clamp_min`, referenced by `config.rs`,
is not among the provided sources; the spec fixes the `auto` counts as
"each floored, each clamped to ≥1", i.e. `max(1, floor(...))`, so
`clamp_min x lo` is the maximum of `x` and the lower bound `lo`. -/
def clamp_min (x lo : Int) : Int := max x lo

/-- Round-to-nearest, ties-to-even, of a natural number to an IEEE-754
binary32 value (24-bit significand), which is what the Rust cast
`overall_cpus as f32` computes. Exact (the identity) for `n ≤ 2 ^ 24`;
above that, `n` is rounded to the nearest representable multiple of
`2 ^ e` where `2 ^ (23 + e) ≤ n < 2 ^ (24 + e)`. -/
def f32round (n : Nat) : Nat :=
  if n ≤ 2 ^ 24 then n
  else
    let e := Nat.findGreatest (fun k => 2 ^ (23 + k) ≤ n) 64
    let q := n / 2 ^ e
    let r := n % 2 ^ e
    let half := 2 ^ (e - 1)
    if r < half then q * 2 ^ e
    else if half < r then (q + 1) * 2 ^ e
    else (if q % 2 = 0 then q else q + 1) * 2 ^ e

/-- The Rust cast `f.floor() as i32` for the non-negative floats occurring
in the `auto` sizing: saturates at `i32::MAX`. -/
def floorAsI32 (x : Nat) : Int := min (x : Int) (2 ^ 31 - 1)

/-- `WorkerCfg::with_calculated_threads`: the `workers: auto` sizing.
`(overall_cpus as f32 * PERC).floor() as i32` is computed exactly through
integers: `f32round` models the `as f32` conversion, and multiplying a
binary32 value by `0.5` (resp. `0.25`) and flooring is exact, equal to
dividing its integer value by 2 (resp. 4). -/
def WorkerCfg.with_calculated_threads (overall_cpus : Nat) : WorkerCfg :=
  { num_processors := clamp_min (floorAsI32 (f32round overall_cpus / 2)) 1,
    num_feeders := clamp_min (floorAsI32 (f32round overall_cpus / 4)) 1,
    num_loaders := clamp_min (floorAsI32 (f32round overall_cpus / 4)) 1 }

/-- The Rust cast `i64 as i32`: two's-complement truncation. -/
def i64AsI32 (n : Int) : Int := (n + 2 ^ 31).emod (2 ^ 32) - 2 ^ 31

/-- `WorkerCfg::int_or_default`: `block.as_i64().unwrap_or(default) as i32`. -/
def WorkerCfg.int_or_default (block : Yaml) (default : Int) : Int :=
  i64AsI32 (block.as_i64.getD default)

/-- `WorkerCfg::from_block`. `ncpus` supplies the external `num_cpus::get()`. -/
def WorkerCfg.from_block (block : Yaml) (ncpus : Nat) :
    Except ConfigurationError WorkerCfg :=
  match block.as_str with
  | some b =>
    if b = "auto" then .ok (WorkerCfg.with_calculated_threads ncpus)
    else
      -- error!("Unknown value for `workers` key: ...")
      .error (.BadWorkersKeyValue b)
  | none =>
    let num_processors :=
      WorkerCfg.int_or_default (block.index "processors") DEFAULT_NUM_PROCESSORS
    let num_feeders :=
      WorkerCfg.int_or_default (block.index "feeders") DEFAULT_NUM_FEEDERS
    let num_loaders :=
      WorkerCfg.int_or_default (block.index "loaders") DEFAULT_NUM_LOADERS
    if num_processors ≤ 0 ∨ num_feeders ≤ 0 ∨ num_loaders ≤ 0 then
      .error .NegativeWorkersError
    else
      .ok { num_processors := num_processors, num_feeders := num_feeders,
            num_loaders := num_loaders }

/-- `Default for WorkerCfg`. -/
def WorkerCfg.defaultCfg : WorkerCfg :=
  { num_processors := DEFAULT_NUM_PROCESSORS,
    num_feeders := DEFAULT_NUM_FEEDERS,
    num_loaders := DEFAULT_NUM_LOADERS }

/-- The Rust cast `i64 as u16`: truncation into `0..2^16`. -/
def i64AsU16 (n : Int) : Nat := (n.emod (2 ^ 16)).toNat

/-- `config.rs` `DbCfg` (`port` is a `u16`). -/
structure DbCfg where
  user : String
  passwd : String
  db_name : String
  host : String
  port : Nat
  deriving Repr, DecidableEq

/-- `DbCfg::from_block`; `env_passwd` supplies the external
`env::var("INFOBSERVE_POSTGRES_PASSWD")` lookup. -/
def DbCfg.from_block (block : Yaml) (env_passwd : Option String) : DbCfg :=
  { user := (block.index "user").as_str.getD "postgres",
    passwd :=
      match (block.index "passwd").as_str with
      | some p => p
      | none =>
        match env_passwd with
        | some v => v
        | none => "infobserve",
    db_name := (block.index "db_name").as_str.getD "infobserve",
    host := (block.index "host").as_str.getD "localhost",
    port :=
      match (block.index "port").as_i64 with
      | some p => i64AsU16 p
      | none => 5432 }

/-- `Default for DbCfg`. -/
def DbCfg.defaultCfg : DbCfg :=
  { user := "postgres", passwd := "infobserve", db_name := "infobserve",
    host := "localhost", port := 5432 }

/-- `config.rs` `RedisCfg` (`port` is a `u16`). -/
structure RedisCfg where
  host : String
  port : Nat
  deriving Repr, DecidableEq

/-- `RedisCfg::from_block`. -/
def RedisCfg.from_block (block : Yaml) : RedisCfg :=
  { host := (block.index "host").as_str.getD "localhost",
    port :=
      match (block.index "port").as_i64 with
      | some p => i64AsU16 p
      | none => 6379 }

/-- `Default for RedisCfg`. -/
def RedisCfg.defaultCfg : RedisCfg := { host := "localhost", port := 6379 }

/-- `config.rs` `Config`. -/
structure Config where
  yara_rule_dir : String
  worker_cfg : WorkerCfg
  db_cfg : DbCfg
  redis_cfg : RedisCfg
  deriving Repr, DecidableEq

/-- `Default for Config`. -/
def Config.defaultCfg : Config :=
  { yara_rule_dir := DEFAULT_YARA_RULE_DIR,
    worker_cfg := WorkerCfg.defaultCfg,
    db_cfg := DbCfg.defaultCfg,
    redis_cfg := RedisCfg.defaultCfg }

/-- Scanner errors of the external `yaml_rust::YamlLoader`. -/
structure YamlScanError where
  msg : String
  deriving Repr, DecidableEq

/-- Errors of `Config::from_string` / `Config::from_file`
(`anyhow::Error` cases: a YAML scan error propagated by `?`, or a
`ConfigurationError`). -/
inductive ConfigLoadError
  | scan (e : YamlScanError)
  | config (e : ConfigurationError)
  deriving Repr, DecidableEq

/-- `Config::from_string`, with the external `YamlLoader::load_from_str`
step supplied as its outcome `parsed`. -/
def Config.from_string (parsed : Except YamlScanError (List Yaml))
    (ncpus : Nat) (env_passwd : Option String) :
    Except ConfigLoadError Config :=
  match parsed with
  | .error e => .error (.scan e)
  | .ok docs =>
    if docs.isEmpty then
      -- warn!("Found empty configuration file. Loading default configuration")
      .ok Config.defaultCfg
    else
      let doc := docs.headD .ybad
      let rule_dir := (doc.index "yara_rule_dir").as_str.getD DEFAULT_YARA_RULE_DIR
      match WorkerCfg.from_block (doc.index "workers") ncpus with
      | .error e => .error (.config e)
      | .ok worker_cfg =>
        .ok { yara_rule_dir := rule_dir,
              worker_cfg := worker_cfg,
              db_cfg := DbCfg.from_block (doc.index "database") env_passwd,
              redis_cfg := RedisCfg.from_block (doc.index "redis") }

/-- `Config::from_file`, with the external `fs::read_to_string` outcome
supplied: `none` models a failed read (for example a missing file), on
which the defaults are returned; `some parsed` carries the YAML scan of the
file's contents. -/
def Config.from_file (contents : Option (Except YamlScanError (List Yaml)))
    (ncpus : Nat) (env_passwd : Option String) :
    Except ConfigLoadError Config :=
  match contents with
  | some parsed => Config.from_string parsed ncpus env_passwd
  | none =>
    -- info!("Could not read configuration file ... Loading defaults")
    .ok Config.defaultCfg

/-- A concrete `workers` block requesting zero processors. -/
def zeroProcBlock : Yaml := .yhash [(.ystr "processors", .yint 0)]

/-! ### Rule-file discovery and Processor construction
(`utils.rs`, `processing.rs`) -/

/-- `Path::file_name`: the characters after the last `/`. -/
def pathFileName (p : String) : List Char :=
  (p.data.reverse.takeWhile (fun c => c ≠ '/')).reverse

/-- `Path::extension`: the portion of the file name after its last dot;
`none` when the name contains no dot or its only dot is the leading dot of
a hidden file. -/
def pathExtension (p : String) : Option String :=
  let rev := (pathFileName p).reverse
  if rev.contains '.' then
    let extChars := rev.takeWhile (fun c => c ≠ '.')
    let stem := rev.drop (extChars.length + 1)
    if stem.isEmpty then none
    else some (String.mk extChars.reverse)
  else none

/-- `utils.rs` `rec_get_files_by_ext`: walk the root and keep every entry
whose extension equals `ext`. `entries` are the (successfully yielded)
paths of the external `WalkDir` traversal; paths are valid unicode here, so
the `to_str` conversion always succeeds. -/
def rec_get_files_by_ext (entries : List String) (ext : String) :
    List String :=
  match entries with
  | [] => []
  | p :: rest =>
    if pathExtension p = some ext then p :: rec_get_files_by_ext rest ext
    else rec_get_files_by_ext rest ext

/-- Abstract compiled rule set (`yara::Rules`): the compiled sources are
recorded for identity, the engine itself is external. -/
structure Rules where
  files : List String
  deriving Repr, DecidableEq

/-- `processing.rs` `Processor`. -/
structure Processor where
  engine : Rules
  deriving Repr, DecidableEq

/-- Errors surfaced by Processor construction: a `ConfigurationError` or a
YARA engine error, both behind `anyhow::Error` in the source. -/
inductive ProcError
  | config (e : ConfigurationError)
  | yara (e : YaraError)
  deriving Repr, DecidableEq

/-- Oracle for the external YARA compiler: which construction step fails. -/
structure CompilerOracle where
  newError : Option YaraError
  addFileError : String → Option YaraError
  compileError : Option YaraError

/-- The `add_rules_file` fold of `Processor::with_rule_files`: first
failure propagates via `?`. -/
def addFilesLoop (o : CompilerOracle) : List String → Option YaraError
  | [] => none
  | f :: rest =>
    match o.addFileError f with
    | some e => some e
    | none => addFilesLoop o rest

/-- `Processor::with_rule_files` from `processing.rs`. -/
def Processor.with_rule_files (o : CompilerOracle) (filenames : List String) :
    Except ProcError Processor :=
  if filenames.isEmpty then
    -- error!("No .yar files found")
    .error (.config .NoYaraRulesError)
  else
    match o.newError with
    | some e => .error (.yara e)
    | none =>
      match addFilesLoop o filenames with
      | some e => .error (.yara e)
      | none =>
        match o.compileError with
        | some e => .error (.yara e)
        | none => .ok { engine := { files := filenames } }

/-- `Processor::from_dir` from `processing.rs`: recursive `.yar` discovery,
then `with_rule_files`. -/
def Processor.from_dir (o : CompilerOracle) (walkEntries : List String) :
    Except ProcError Processor :=
  Processor.with_rule_files o (rec_get_files_by_ext walkEntries "yar")

/-- A compiler oracle on which every engine step succeeds. -/
def noFailCompiler : CompilerOracle :=
  { newError := none, addFileError := fun _ => none, compileError := none }

/-! ### Transactional persistence (`database/loader.rs`)

The store itself (postgres behind an `r2d2` pool) is external: its state is
modelled as the committed contents of the three tables, the failure of each
store round-trip is an oracle, and the serial row ids are derived from the
current table sizes (sequence gaps left by rolled-back transactions are not
modelled; no claim observes them). All inserts of one
`persist_processed_event` call go through one `Transaction`; rows become
visible only at `trans.commit()`, and every early `return` drops the
transaction, which rolls the pending rows back. -/

/-- Row of the `events` table (`Event::insert`). -/
structure EventRow where
  id : Int
  source : String
  url : String
  size : Int
  raw_content : String
  filename : String
  creator : String
  created_at : DateTimeLocal
  discovered_at : DateTimeLocal
  deriving Repr, DecidableEq

/-- Row of the `rule_matches` table (`RuleMatch::insert`). -/
structure RuleMatchRow where
  id : Int
  event_id : Int
  rule_matched : String
  tags_matched : List String
  deriving Repr, DecidableEq

/-- Row of the `ascii_matches` table (`AsciiMatch::insert`; the column is
named `match_id`). -/
structure AsciiMatchRow where
  id : Int
  match_id : Int
  matched_string : ByteStr
  deriving Repr, DecidableEq

/-- Committed contents of the store's three tables. -/
structure DbTables where
  events : List EventRow
  rule_matches : List RuleMatchRow
  ascii_matches : List AsciiMatchRow
  deriving Repr, DecidableEq

/-- The Rust cast `usize as i64`: two's-complement truncation. -/
def usizeAsI64 (n : Nat) : Int := ((n : Int) + 2 ^ 63).emod (2 ^ 64) - 2 ^ 63

/-- The row written by `Event::insert` once the store assigns id `id`
(`INSERT INTO events ... RETURNING id`; `size` is bound as
`self.size as i64`). -/
def eventRowOf (id : Int) (ev : Event) : EventRow :=
  { id := id, source := ev.source, url := ev.url,
    size := usizeAsI64 ev.size, raw_content := ev.raw_content,
    filename := ev.filename, creator := ev.creator,
    created_at := ev.created_at, discovered_at := ev.discovered_at }

/-- Failure oracle of one `persist_processed_event` call: which store
round-trips fail. `insertRuleFails k` refers to the `k`-th FlatMatch,
`insertAsciiFails k j` to its `j`-th fragment. -/
structure FailOracle where
  connFails : Bool
  txFails : Bool
  insertEventFails : Bool
  insertRuleFails : Nat → Bool
  insertAsciiFails : Nat → Nat → Bool
  commitFails : Bool

/-- Inner loop over `flat_match.data()`: one `AsciiMatch::insert` per
fragment inside the open transaction. `abase` is the id the store's
sequence assigns next. `none` models the early `return` on a failed
insert. -/
def insertAsciiRows (o : FailOracle) (k : Nat) (mid : Int) :
    List ByteStr → Int → Nat → Option (List AsciiMatchRow)
  | [], _, _ => some []
  | d :: rest, abase, j =>
    if o.insertAsciiFails k j then
      -- error!("Failed to insert ascii match: ...")
      none
    else
      match insertAsciiRows o k mid rest (abase + 1) (j + 1) with
      | none => none
      | some rows =>
        some ({ id := abase, match_id := mid, matched_string := d } :: rows)

/-- Outer loop over the FlatMatches: `RuleMatch::new(event_id, rule_name,
tags)` inserted (its `RETURNING id` is `rbase`, so the empty-id branch is
not taken), then the AsciiMatch rows of its fragments. -/
def insertMatchRows (o : FailOracle) (eid : Int) :
    List FlatMatch → Nat → Int → Int →
      Option (List RuleMatchRow × List AsciiMatchRow)
  | [], _, _, _ => some ([], [])
  | fm :: rest, k, rbase, abase =>
    if o.insertRuleFails k then
      -- error!("Failed to insert rule match: ...")
      none
    else
      match insertAsciiRows o k rbase fm.data abase 0 with
      | none => none
      | some arows =>
        match insertMatchRows o eid rest (k + 1) (rbase + 1)
            (abase + arows.length) with
        | none => none
        | some (rrows, arows2) =>
          some ({ id := rbase, event_id := eid,
                  rule_matched := fm.rule_name,
                  tags_matched := fm.tags } :: rrows,
                arows ++ arows2)

/-- The AsciiMatch rows of one FlatMatch when every insert succeeds. -/
def asciiRowsFor (mid : Int) : Int → List ByteStr → List AsciiMatchRow
  | _, [] => []
  | abase, d :: rest =>
    { id := abase, match_id := mid, matched_string := d }
      :: asciiRowsFor mid (abase + 1) rest

/-- The RuleMatch and AsciiMatch rows of a whole match list when every
insert succeeds: rule matches in FlatMatch order, ascii matches in fragment
order. -/
def ruleRowsFor (eid : Int) :
    List FlatMatch → Int → Int → List RuleMatchRow × List AsciiMatchRow
  | [], _, _ => ([], [])
  | fm :: rest, rbase, abase =>
    let arows := asciiRowsFor rbase abase fm.data
    let pr := ruleRowsFor eid rest (rbase + 1) (abase + arows.length)
    ({ id := rbase, event_id := eid, rule_matched := fm.rule_name,
       tags_matched := fm.tags } :: pr.1,
     arows ++ pr.2)

/-- The store state after the whole triple of one ProcessedEvent commits:
the Event row, its RuleMatch rows and their AsciiMatch rows appended in
insertion order. -/
def commitTriple (st : DbTables) (pe : ProcessedEvent) : DbTables :=
  let eid : Int := st.events.length
  let pr := ruleRowsFor eid pe.«matches» (st.rule_matches.length : Int)
    (st.ascii_matches.length : Int)
  { events := st.events ++ [eventRowOf eid pe.event],
    rule_matches := st.rule_matches ++ pr.1,
    ascii_matches := st.ascii_matches ++ pr.2 }

/-- `DbLoader::persist_processed_event` from `database/loader.rs`: acquire
a pooled connection, open a transaction, insert the Event (whose
`RETURNING id` populates `event.id()`, so the empty-ID branch is dead),
insert each RuleMatch and its AsciiMatches, commit. Every failing step logs
and returns, dropping the transaction, so the committed tables change only
when `trans.commit()` succeeds. -/
def persist_processed_event (o : FailOracle) (st : DbTables)
    (pe : ProcessedEvent) : DbTables :=
  if o.connFails then
    -- error!("Failed to get connection: ...")
    st
  else if o.txFails then
    -- error!("Could not initiate transaction to db: ...")
    st
  else if o.insertEventFails then
    -- error!("Failed to insert event: ...")
    st
  else
    let eid : Int := st.events.length
    match insertMatchRows o eid pe.«matches» 0 (st.rule_matches.length : Int)
        (st.ascii_matches.length : Int) with
    | none => st
    | some (rrows, arows) =>
      if o.commitFails then
        -- error!("Unable to commit transaction: ...")
        st
      else
        { events := st.events ++ [eventRowOf eid pe.event],
          rule_matches := st.rule_matches ++ rrows,
          ascii_matches := st.ascii_matches ++ arows }

lemma flatMatchData_eq_filter (ms : List ByteStr) :
    flatMatchData ms = ms.filter (fun m => validUtf8 m) := by
  induction ms with
  | nil => rfl
  | cons m rest ih =>
    by_cases h : validUtf8 m
    · simp [flatMatchData, h, List.filter, ih]
    · simp [flatMatchData, h, List.filter, ih]

/-- C6: FlatMatch construction keeps exactly the valid-UTF-8 fragments, in
their original order; a fragment that fails UTF-8 decoding is dropped while
the other fragments are retained, so every stored fragment is valid UTF-8. -/
theorem flatMatch_new_keeps_exactly_valid_utf8
    (name : String) (tags : List String) (ms : List ByteStr) :
    (FlatMatch.new name tags ms).data = ms.filter (fun m => validUtf8 m) ∧
    ∀ d, d ∈ (FlatMatch.new name tags ms).data → validUtf8 d = true := by
  constructor
  · exact flatMatchData_eq_filter ms
  · intro d hd
    rw [FlatMatch.new, flatMatchData_eq_filter] at hd
    exact (List.mem_filter.mp hd).2

/-- C6 witness: a valid fragment (`"hi"`) is kept while the invalid byte
`0xFF` fragment is dropped, evaluated on concrete input. -/
theorem flatMatch_new_keeps_exactly_valid_utf8_witness :
    (FlatMatch.new "r" [] [[104, 105], [255]]).data
        = List.filter (fun m => validUtf8 m) [[104, 105], [255]] ∧
    validUtf8 [104, 105] = true :=
  ⟨(flatMatch_new_keeps_exactly_valid_utf8 "r" [] [[104, 105], [255]]).1,
   (flatMatch_new_keeps_exactly_valid_utf8 "r" [] [[104, 105], [255]]).2
     [104, 105] (by decide)⟩

lemma parseItems_preserves_no_offset :
    ∀ (items : List FmtItem), FmtItem.tzOffset ∉ items →
      ∀ (s : List Char) (p : ChronoParsed), p.offset = none →
        ∀ q r, parseItems items s p = .ok (q, r) → q.offset = none := by
  intro items
  induction items with
  | nil =>
    intro _ s p hp q r h
    simp only [parseItems, Except.ok.injEq, Prod.mk.injEq] at h
    rw [← h.1]
    exact hp
  | cons it rest ih =>
    intro hnot s p hp q r h
    have hnotr : FmtItem.tzOffset ∉ rest := fun hmem => hnot (List.mem_cons_of_mem _ hmem)
    have hne : it ≠ FmtItem.tzOffset := fun he => hnot (he ▸ List.mem_cons_self _ _)
    cases it with
    | lit c =>
      cases s with
      | nil => simp [parseItems] at h
      | cons c0 s' =>
        simp only [parseItems] at h
        by_cases hc : c0 = c
        · rw [if_pos hc] at h
          exact ih hnotr s' p hp q r h
        · rw [if_neg hc] at h
          exact absurd h (by simp)
    | year =>
      simp only [parseItems] at h
      cases hs : scanNumber 4 s with
      | error e => rw [hs] at h; exact absurd h (by simp)
      | ok vs =>
        obtain ⟨v, s'⟩ := vs
        rw [hs] at h
        exact ih hnotr s' { p with year := some v } hp q r h
    | month =>
      simp only [parseItems] at h
      cases hs : scanNumber 2 s with
      | error e => rw [hs] at h; exact absurd h (by simp)
      | ok vs =>
        obtain ⟨v, s'⟩ := vs
        rw [hs] at h
        exact ih hnotr s' { p with month := some v } hp q r h
    | day =>
      simp only [parseItems] at h
      cases hs : scanNumber 2 s with
      | error e => rw [hs] at h; exact absurd h (by simp)
      | ok vs =>
        obtain ⟨v, s'⟩ := vs
        rw [hs] at h
        exact ih hnotr s' { p with day := some v } hp q r h
    | hour =>
      simp only [parseItems] at h
      cases hs : scanNumber 2 s with
      | error e => rw [hs] at h; exact absurd h (by simp)
      | ok vs =>
        obtain ⟨v, s'⟩ := vs
        rw [hs] at h
        exact ih hnotr s' { p with hour := some v } hp q r h
    | minute =>
      simp only [parseItems] at h
      cases hs : scanNumber 2 s with
      | error e => rw [hs] at h; exact absurd h (by simp)
      | ok vs =>
        obtain ⟨v, s'⟩ := vs
        rw [hs] at h
        exact ih hnotr s' { p with minute := some v } hp q r h
    | second =>
      simp only [parseItems] at h
      cases hs : scanNumber 2 s with
      | error e => rw [hs] at h; exact absurd h (by simp)
      | ok vs =>
        obtain ⟨v, s'⟩ := vs
        rw [hs] at h
        exact ih hnotr s' { p with second := some v } hp q r h
    | tzOffset => exact absurd rfl hne

lemma parse_from_str_DATETIME_FMT_always_error (s : String) :
    ∃ e, DateTime.parse_from_str s DATETIME_FMT = .error e := by
  unfold DateTime.parse_from_str
  cases h : parseItems DATETIME_FMT s.data {} with
  | error e => exact ⟨e, rfl⟩
  | ok pr =>
    obtain ⟨p, rest⟩ := pr
    have hoff : p.offset = none :=
      parseItems_preserves_no_offset DATETIME_FMT (by decide) s.data {} rfl p rest h
    by_cases hr : rest.isEmpty
    · exact ⟨.notEnough, by simp [hr, ChronoParsed.to_datetime, hoff]⟩
    · exact ⟨.tooLong, by simp [hr]⟩

lemma from_json_never_ok (j : JValue) (ev : Event) :
    Event.from_json j ≠ .ok ev := by
  unfold Event.from_json
  rcases hu : Event.get_str j "url" with e | url
  · simp
  rcases hz : Event.get_i64 j "size" with e | sizeI
  · simp
  rcases hsrc : Event.get_str j "source" with e | source
  · simp
  rcases hrc : Event.get_str j "raw_content" with e | rc
  · simp
  rcases hfn : Event.get_str j "filename" with e | fn
  · simp
  rcases hcr : Event.get_str j "creator" with e | cr
  · simp
  rcases hca : Event.get_str j "created_at" with e | c
  · simp
  obtain ⟨e, he⟩ := parse_from_str_DATETIME_FMT_always_error c
  simp [he]

/-- C3: a JSON payload whose `size` field is a negative integer is rejected
by envelope decoding with a decode error (no Event is produced), so no
negative-size event can reach the feed-queue. In the current code this
rejection does not come from a sign check in `get_i64` — which accepts any
`i64` — but from the unconditional failure of the timestamp parse (see the
C4 theorem): decoding errors out on every payload. -/
theorem negative_size_payload_rejected (j : JValue) (n : Int)
    (hsize : (JValue.index j "size").as_i64 = some n) (hneg : n < 0) :
    exceptIsErr (Event.from_json j) = true := by
  cases h : Event.from_json j with
  | error e => rfl
  | ok ev => exact absurd h (from_json_never_ok j ev)

/-- C3 witness: the concrete payload with `size = -1` is rejected. -/
theorem negative_size_payload_rejected_witness :
    (JValue.index negSizePayload "size").as_i64 = some (-1) ∧
    (-1 : Int) < 0 ∧
    exceptIsErr (Event.from_json negSizePayload) = true :=
  ⟨by decide, by decide,
   negative_size_payload_rejected negSizePayload (-1) (by decide) (by decide)⟩

/-- C4 (refuted by the code): a payload with all required string fields, a
non-negative integer `size` and both timestamps in the exact
`YYYY/MM/DD-HH:MM:SS` format is NOT decoded into an Event. The format
string `%Y/%m/%d-%H:%M:%S` contains no UTC-offset item, and
`chrono::DateTime::parse_from_str` (the `DateTime<FixedOffset>` parser)
fails with `ParseError(NotEnough)` whenever no offset was parsed, so
`Event::from_json_str` returns an error for every payload. -/
theorem wellformed_payload_decode_fails :
    Event.from_json wellFormedPayload
      = .error (.chronoParse .notEnough) := by
  rfl

/-- C1: every ProcessedEvent a processor worker sends to the load-queue
carries a non-empty FlatMatch list; events whose scan returns an empty
match list are dropped silently and nothing is pushed. -/
theorem load_queue_events_have_matches
    (scan : String → Except YaraError (List FlatMatch))
    (sendOk : Nat → Bool) (elapsed : Nat → Nat)
    (events : List Event) (stats : Stats) (i t : Nat)
    (pe : ProcessedEvent)
    (hpe : pe ∈ (process_forever scan sendOk elapsed events stats i t).2) :
    pe.«matches» ≠ [] := by
  induction events generalizing stats i t with
  | nil => simp [process_forever] at hpe
  | cons message rest ih =>
    simp only [process_forever] at hpe
    cases hscan : scan message.raw_content with
    | ok m =>
      simp only [hscan] at hpe
      by_cases hm : m.isEmpty
      · rw [if_pos hm] at hpe
        exact ih _ _ _ hpe
      · rw [if_neg hm] at hpe
        by_cases hs : sendOk t
        · rw [if_pos hs] at hpe
          rcases List.mem_cons.mp hpe with heq | hmem
          · subst heq
            simpa [List.isEmpty_iff] using hm
          · exact ih _ _ _ hmem
        · rw [if_neg hs] at hpe
          exact ih _ _ _ hpe
    | error e =>
      simp only [hscan] at hpe
      exact ih _ _ _ hpe

/-- C1 witness: a concrete matching event is sent with its non-empty match
list. -/
theorem load_queue_events_have_matches_witness :
    (⟨sampleEvent, [sampleFlatMatch]⟩ : ProcessedEvent)
        ∈ (process_forever oneMatchScan allSendOk zeroElapsed
            [sampleEvent] Stats.new 0 0).2 ∧
    (⟨sampleEvent, [sampleFlatMatch]⟩ : ProcessedEvent).«matches» ≠ [] :=
  ⟨by decide,
   load_queue_events_have_matches oneMatchScan allSendOk zeroElapsed
     [sampleEvent] Stats.new 0 0 ⟨sampleEvent, [sampleFlatMatch]⟩ (by decide)⟩

lemma process_forever_matches_le_events
    (scan : String → Except YaraError (List FlatMatch))
    (sendOk : Nat → Bool) (elapsed : Nat → Nat) :
    ∀ (events : List Event) (stats : Stats) (i t : Nat),
      stats.num_matches ≤ stats.num_events →
      stats.num_events + events.length < U32_MOD →
      (process_forever scan sendOk elapsed events stats i t).1.num_matches
        ≤ (process_forever scan sendOk elapsed events stats i t).1.num_events := by
  intro events
  induction events with
  | nil =>
    intro stats i t hle _
    simpa [process_forever] using hle
  | cons message rest ih =>
    intro stats i t hle hbound
    have hev : (stats.num_events + 1) % U32_MOD = stats.num_events + 1 := by
      apply Nat.mod_eq_of_lt
      simp only [List.length_cons] at hbound
      omega
    have hma : (stats.num_matches + 1) % U32_MOD = stats.num_matches + 1 := by
      apply Nat.mod_eq_of_lt
      simp only [List.length_cons] at hbound
      omega
    simp only [process_forever]
    cases hscan : scan message.raw_content with
    | ok m =>
      simp only [hscan]
      by_cases hm : m.isEmpty
      · rw [if_pos hm]
        apply ih
        · simp only [Stats.add_duration, Stats.inc_events, hev]
          omega
        · simp only [Stats.add_duration, Stats.inc_events, hev,
            List.length_cons] at hbound ⊢
          omega
      · rw [if_neg hm]
        by_cases hs : sendOk t
        · rw [if_pos hs]
          apply ih
          · simp only [Stats.add_duration, Stats.inc_matches,
              Stats.inc_events, hev, hma]
            omega
          · simp only [Stats.add_duration, Stats.inc_matches,
              Stats.inc_events, hev, List.length_cons] at hbound ⊢
            omega
        · rw [if_neg hs]
          apply ih
          · simp only [Stats.add_duration, Stats.inc_failures,
              Stats.inc_matches, Stats.inc_events, hev, hma]
            omega
          · simp only [Stats.add_duration, Stats.inc_failures,
              Stats.inc_matches, Stats.inc_events, hev,
              List.length_cons] at hbound ⊢
            omega
    | error e =>
      simp only [hscan]
      apply ih
      · simp only [Stats.add_duration, Stats.inc_events, hev]
        omega
      · simp only [Stats.add_duration, Stats.inc_events, hev,
          List.length_cons] at hbound ⊢
        omega

/-- C9 (amended): in every processor worker's Stats, for any sequence of
fewer than `2 ^ 32` events, the matched-events counter is at most the
processed-events counter, and hence the sum of `num_matches` over any
collection of such workers is at most the sum of `num_events`. The bound is
forced by the wrapping `u32` counters: at exactly `2 ^ 32` events the event
counter wraps past the match counter (see the counterexample). -/
theorem stats_matches_le_processed :
    (∀ (scan : String → Except YaraError (List FlatMatch))
       (sendOk : Nat → Bool) (elapsed : Nat → Nat) (events : List Event),
        events.length < U32_MOD →
        (process_forever scan sendOk elapsed events Stats.new 0 0).1.num_matches
          ≤ (process_forever scan sendOk elapsed events Stats.new 0 0).1.num_events)
    ∧ (∀ workers : List WorkerRun,
        (∀ w ∈ workers, w.events.length < U32_MOD) →
        (workers.map fun w => (WorkerRun.result w).1.num_matches).sum
          ≤ (workers.map fun w => (WorkerRun.result w).1.num_events).sum) := by
  have single : ∀ (scan : String → Except YaraError (List FlatMatch))
      (sendOk : Nat → Bool) (elapsed : Nat → Nat) (events : List Event),
      events.length < U32_MOD →
      (process_forever scan sendOk elapsed events Stats.new 0 0).1.num_matches
        ≤ (process_forever scan sendOk elapsed events Stats.new 0 0).1.num_events := by
    intro scan sendOk elapsed events hlen
    apply process_forever_matches_le_events
    · simp [Stats.new]
    · simpa [Stats.new] using hlen
  refine ⟨single, ?_⟩
  intro workers hws
  induction workers with
  | nil => simp
  | cons w rest ih =>
    simp only [List.map_cons, List.sum_cons]
    have h1 : (WorkerRun.result w).1.num_matches
        ≤ (WorkerRun.result w).1.num_events :=
      single w.scan w.sendOk w.elapsed w.events (hws w (List.mem_cons_self w rest))
    have h2 := ih (fun x hx => hws x (List.mem_cons_of_mem w hx))
    omega

/-- C9 witness: a concrete one-event run satisfies the bound. -/
theorem stats_matches_le_processed_witness :
    ([sampleEvent] : List Event).length < U32_MOD ∧
    (process_forever oneMatchScan allSendOk zeroElapsed
        [sampleEvent] Stats.new 0 0).1.num_matches
      ≤ (process_forever oneMatchScan allSendOk zeroElapsed
          [sampleEvent] Stats.new 0 0).1.num_events :=
  ⟨by decide,
   stats_matches_le_processed.1 oneMatchScan allSendOk zeroElapsed
     [sampleEvent] (by decide)⟩

/-- C10: a configuration file that cannot be read is not an error:
`Config::from_file` returns the complete default configuration — default
rule directory, one worker of each kind, default database and redis
endpoints. -/
theorem missing_config_file_loads_defaults (ncpus : Nat)
    (env_passwd : Option String) :
    Config.from_file none ncpus env_passwd = .ok Config.defaultCfg ∧
    Config.defaultCfg =
      { yara_rule_dir := "yara-rules/",
        worker_cfg := { num_processors := 1, num_feeders := 1, num_loaders := 1 },
        db_cfg := { user := "postgres", passwd := "infobserve",
                    db_name := "infobserve", host := "localhost", port := 5432 },
        redis_cfg := { host := "localhost", port := 6379 } } :=
  ⟨rfl, rfl⟩

lemma workerCfg_from_block_pos (block : Yaml) (ncpus : Nat) (w : WorkerCfg)
    (h : WorkerCfg.from_block block ncpus = .ok w) :
    0 < w.num_processors ∧ 0 < w.num_feeders ∧ 0 < w.num_loaders := by
  cases hstr : block.as_str with
  | some b =>
    simp only [WorkerCfg.from_block, hstr] at h
    by_cases hb : b = "auto"
    · rw [if_pos hb] at h
      injection h with h'
      subst h'
      refine ⟨?_, ?_, ?_⟩ <;>
        (simp only [WorkerCfg.with_calculated_threads, clamp_min]; omega)
    · rw [if_neg hb] at h
      exact absurd h (by simp)
  | none =>
    simp only [WorkerCfg.from_block, hstr] at h
    split at h
    · exact absurd h (by simp)
    · rename_i hcond
      injection h with h'
      subst h'
      push_neg at hcond
      exact ⟨hcond.1, hcond.2.1, hcond.2.2⟩

/-- C8: a `workers` block whose computed processors, feeders or loaders
count is ≤ 0 makes `WorkerCfg::from_block` fail with `NegativeWorkersError`,
and no Config with a non-positive worker count is ever returned by
configuration loading (`Config::from_file`). -/
theorem nonpositive_worker_counts_rejected :
    (∀ (block : Yaml) (ncpus : Nat),
        block.as_str = none →
        (WorkerCfg.int_or_default (block.index "processors")
            DEFAULT_NUM_PROCESSORS ≤ 0 ∨
         WorkerCfg.int_or_default (block.index "feeders")
            DEFAULT_NUM_FEEDERS ≤ 0 ∨
         WorkerCfg.int_or_default (block.index "loaders")
            DEFAULT_NUM_LOADERS ≤ 0) →
        WorkerCfg.from_block block ncpus = .error .NegativeWorkersError)
    ∧ (∀ (contents : Option (Except YamlScanError (List Yaml)))
         (ncpus : Nat) (env_passwd : Option String) (cfg : Config),
        Config.from_file contents ncpus env_passwd = .ok cfg →
        0 < cfg.worker_cfg.num_processors ∧
        0 < cfg.worker_cfg.num_feeders ∧
        0 < cfg.worker_cfg.num_loaders) := by
  constructor
  · intro block ncpus hstr hle
    simp only [WorkerCfg.from_block, hstr]
    rw [if_pos hle]
  · intro contents ncpus env_passwd cfg h
    cases contents with
    | none =>
      simp only [Config.from_file] at h
      injection h with h'
      subst h'
      exact ⟨by decide, by decide, by decide⟩
    | some parsed =>
      cases parsed with
      | error e => simp [Config.from_file, Config.from_string] at h
      | ok docs =>
        simp only [Config.from_file, Config.from_string] at h
        by_cases hd : docs.isEmpty
        · rw [if_pos hd] at h
          injection h with h'
          subst h'
          exact ⟨by decide, by decide, by decide⟩
        · rw [if_neg hd] at h
          cases hw : WorkerCfg.from_block ((docs.headD .ybad).index "workers")
              ncpus with
          | error e =>
            simp only [hw] at h
            exact absurd h (by simp)
          | ok w =>
            simp only [hw] at h
            injection h with h'
            subst h'
            exact workerCfg_from_block_pos _ _ _ hw

/-- C8 witness: a block with `processors: 0` is rejected with
`NegativeWorkersError`. -/
theorem nonpositive_worker_counts_rejected_witness :
    zeroProcBlock.as_str = none ∧
    (WorkerCfg.int_or_default (zeroProcBlock.index "processors")
        DEFAULT_NUM_PROCESSORS ≤ 0 ∨
     WorkerCfg.int_or_default (zeroProcBlock.index "feeders")
        DEFAULT_NUM_FEEDERS ≤ 0 ∨
     WorkerCfg.int_or_default (zeroProcBlock.index "loaders")
        DEFAULT_NUM_LOADERS ≤ 0) ∧
    WorkerCfg.from_block zeroProcBlock 8 = .error .NegativeWorkersError :=
  ⟨rfl, Or.inl (by decide),
   nonpositive_worker_counts_rejected.1 zeroProcBlock 8 rfl (Or.inl (by decide))⟩

/-- C5 counterexample: with N = 16777219 (= 2^24 + 3) logical CPUs the
`workers: auto` sizing yields 8388610 processors, while the claimed formula
gives max(1, floor(0.5 · 16777219)) = 8388609: the conversion
`overall_cpus as f32` rounds 16777219 to 16777220 (ties-to-even at 24-bit
precision) before the multiplication by 0.5. -/
theorem auto_workers_formula_fails_at_large_cpu_count :
    (WorkerCfg.with_calculated_threads 16777219).num_processors = 8388610 ∧
    max 1 ((16777219 : Int) / 2) = 8388609 := by
  constructor
  · decide
  · decide

/-- C5 (amended): for every logical-CPU count N with 1 ≤ N ≤ 2^24 — the
range in which `N as f32` is exact; every real machine is far inside it —
`workers: auto` yields exactly max(1, floor(0.5·N)) processors,
max(1, floor(0.25·N)) feeders and max(1, floor(0.25·N)) loaders; in
particular N = 8 yields 4, 2, 2 and N = 1 yields 1, 1, 1. For larger N the
f32 rounding of N can shift the counts (see the counterexample). -/
theorem auto_workers_counts (N : Nat) (h1 : 1 ≤ N) (h2 : N ≤ 2 ^ 24) :
    (WorkerCfg.with_calculated_threads N).num_processors
        = ((max 1 (N / 2) : Nat) : Int) ∧
    (WorkerCfg.with_calculated_threads N).num_feeders
        = ((max 1 (N / 4) : Nat) : Int) ∧
    (WorkerCfg.with_calculated_threads N).num_loaders
        = ((max 1 (N / 4) : Nat) : Int) := by
  have hf : f32round N = N := by
    unfold f32round
    rw [if_pos h2]
  refine ⟨?_, ?_, ?_⟩ <;>
(    simp only [WorkerCfg.with_calculated_threads, hf, clamp_min, floorAsI32] <;>
    omega)

/-- C5 witness: N = 8 yields 4 processors, 2 feeders, 2 loaders. -/
theorem auto_workers_counts_witness :
    (1 ≤ 8 ∧ 8 ≤ 2 ^ 24) ∧
    ((WorkerCfg.with_calculated_threads 8).num_processors
        = ((max 1 (8 / 2) : Nat) : Int) ∧
     (WorkerCfg.with_calculated_threads 8).num_feeders
        = ((max 1 (8 / 4) : Nat) : Int) ∧
     (WorkerCfg.with_calculated_threads 8).num_loaders
        = ((max 1 (8 / 4) : Nat) : Int)) :=
  ⟨⟨by decide, by decide⟩, auto_workers_counts 8 (by decide) (by decide)⟩

/-- C7: when recursive discovery under the rule root finds zero `.yar`
files, Processor construction fails with the NoRules error
(`NoYaraRulesError`) for every behaviour of the external compiler. -/
theorem no_yar_files_gives_NoRules (o : CompilerOracle)
    (entries : List String)
    (h : rec_get_files_by_ext entries "yar" = []) :
    Processor.from_dir o entries = .error (.config .NoYaraRulesError) := by
  unfold Processor.from_dir Processor.with_rule_files
  rw [h]
  simp

/-- C7 witness: a rule directory containing only a README yields no `.yar`
file and construction fails with `NoYaraRulesError`. -/
theorem no_yar_files_gives_NoRules_witness :
    rec_get_files_by_ext ["yara-rules/README.md"] "yar" = [] ∧
    Processor.from_dir noFailCompiler ["yara-rules/README.md"]
      = .error (.config .NoYaraRulesError) :=
  ⟨rfl,
   no_yar_files_gives_NoRules noFailCompiler ["yara-rules/README.md"] rfl⟩

lemma insertAsciiRows_eq (o : FailOracle) (k : Nat) (mid : Int) :
    ∀ (frags : List ByteStr) (abase : Int) (j : Nat)
      (rows : List AsciiMatchRow),
      insertAsciiRows o k mid frags abase j = some rows →
      rows = asciiRowsFor mid abase frags := by
  intro frags
  induction frags with
  | nil =>
    intro abase j rows h
    simp only [insertAsciiRows, Option.some.injEq] at h
    simp [asciiRowsFor, ← h]
  | cons d rest ih =>
    intro abase j rows h
    simp only [insertAsciiRows] at h
    by_cases hf : o.insertAsciiFails k j
    · rw [if_pos hf] at h
      exact absurd h (by simp)
    · rw [if_neg hf] at h
      cases hr : insertAsciiRows o k mid rest (abase + 1) (j + 1) with
      | none => rw [hr] at h; exact absurd h (by simp)
      | some rows' =>
        rw [hr] at h
        simp only [Option.some.injEq] at h
        rw [← h, asciiRowsFor, ih (abase + 1) (j + 1) rows' hr]

lemma insertMatchRows_eq (o : FailOracle) (eid : Int) :
    ∀ (ms : List FlatMatch) (k : Nat) (rbase abase : Int)
      (out : List RuleMatchRow × List AsciiMatchRow),
      insertMatchRows o eid ms k rbase abase = some out →
      out = ruleRowsFor eid ms rbase abase := by
  intro ms
  induction ms with
  | nil =>
    intro k rbase abase out h
    simp only [insertMatchRows, Option.some.injEq] at h
    simp [ruleRowsFor, ← h]
  | cons fm rest ih =>
    intro k rbase abase out h
    simp only [insertMatchRows] at h
    by_cases hf : o.insertRuleFails k
    · rw [if_pos hf] at h
      exact absurd h (by simp)
    · rw [if_neg hf] at h
      cases ha : insertAsciiRows o k rbase fm.data abase 0 with
      | none => rw [ha] at h; exact absurd h (by simp)
      | some arows =>
        simp only [ha] at h
        cases hm : insertMatchRows o eid rest (k + 1) (rbase + 1)
            (abase + arows.length) with
        | none => rw [hm] at h; exact absurd h (by simp)
        | some pr =>
          obtain ⟨rrows, arows2⟩ := pr
          rw [hm] at h
          simp only [Option.some.injEq] at h
          have harows : arows = asciiRowsFor rbase abase fm.data :=
            insertAsciiRows_eq o k rbase fm.data abase 0 arows ha
          have hrest : (rrows, arows2)
              = ruleRowsFor eid rest (rbase + 1) (abase + arows.length) :=
            ih (k + 1) (rbase + 1) (abase + arows.length) (rrows, arows2) hm
          rw [← h, ruleRowsFor]
          rw [← harows, ← hrest]

/-- C2: `persist_processed_event` is atomic. For every failure behaviour of
the store, every store state and every ProcessedEvent, the committed tables
either stay exactly as they were (any intermediate failure — connection
acquisition, transaction open, any insert, commit — aborts without
committing) or gain exactly the whole triple: the Event row, its RuleMatch
rows in FlatMatch order and their AsciiMatch rows in fragment order, all in
one transaction. -/
theorem persist_processed_event_atomic (o : FailOracle) (st : DbTables)
    (pe : ProcessedEvent) :
    persist_processed_event o st pe = st ∨
    persist_processed_event o st pe = commitTriple st pe := by
  unfold persist_processed_event
  by_cases h1 : o.connFails
  · left; rw [if_pos h1]
  rw [if_neg h1]
  by_cases h2 : o.txFails
  · left; rw [if_pos h2]
  rw [if_neg h2]
  by_cases h3 : o.insertEventFails
  · left; rw [if_pos h3]
  rw [if_neg h3]
  cases hm : insertMatchRows o (st.events.length : Int) pe.«matches» 0
      (st.rule_matches.length : Int) (st.ascii_matches.length : Int) with
  | none =>
    left
    simp only [hm]
  | some out =>
    obtain ⟨rrows, arows⟩ := out
    by_cases h4 : o.commitFails
    · left
      simp only [hm, if_pos h4]
    · right
      simp only [hm, if_neg h4]
      have hout : (rrows, arows) = ruleRowsFor (st.events.length : Int)
          pe.«matches» (st.rule_matches.length : Int)
          (st.ascii_matches.length : Int) :=
        insertMatchRows_eq o (st.events.length : Int) pe.«matches» 0
          (st.rule_matches.length : Int) (st.ascii_matches.length : Int)
          (rrows, arows) hm
      simp only [commitTriple, ← hout]

lemma stats_add_duration_zero (s : Stats) : s.add_duration 0 = s := rfl

lemma process_nomatch_leading_run (scan : String → Except YaraError (List FlatMatch))
    (sendOk : Nat → Bool)
    (hsc : scan noMatchEvent.raw_content = Except.ok []) :
    ∀ (n : Nat) (l : List Event) (stats : Stats) (i t : Nat),
      stats.num_events < U32_MOD →
      process_forever scan sendOk zeroElapsed
          (List.replicate n noMatchEvent ++ l) stats i t
        = process_forever scan sendOk zeroElapsed l
            { stats with num_events := (stats.num_events + n) % U32_MOD }
            (i + n) t := by
  intro n
  induction n with
  | zero =>
    intro l stats i t hlt
    simp [Nat.mod_eq_of_lt hlt]
  | succ n ih =>
    intro l stats i t hlt
    rw [List.replicate_succ, List.cons_append]
    simp only [process_forever, hsc, List.isEmpty_nil, if_true, zeroElapsed,
      stats_add_duration_zero]
    have hlt' : stats.inc_events.num_events < U32_MOD := by
      simp only [Stats.inc_events]
      exact Nat.mod_lt _ (by decide)
    rw [ih l stats.inc_events (i + 1) t hlt']
    have e2 : i + 1 + n = i + (n + 1) := by omega
    have e3 : (stats.num_events + 1 + n) % U32_MOD
        = (stats.num_events + (n + 1)) % U32_MOD := by
      congr 1
      omega
    rw [e2]
    simp only [Stats.inc_events, Nat.mod_add_mod, e3]

/-- C9 counterexample: the unrestricted claim fails on the code's wrapping
`u32` counters at a concrete input. After a run of exactly `2 ^ 32` events
of which only the last one matches, the worker's `num_events` counter has
wrapped back to 0 while `num_matches` is 1, so the matched-events counter
exceeds the processed-events counter. -/
theorem stats_wrap_breaks_matches_le_events :
    ¬ ((process_forever wrapScan allSendOk zeroElapsed
          (List.replicate (2 ^ 32 - 1) noMatchEvent ++ [sampleEvent])
          Stats.new 0 0).1.num_matches
        ≤ (process_forever wrapScan allSendOk zeroElapsed
            (List.replicate (2 ^ 32 - 1) noMatchEvent ++ [sampleEvent])
            Stats.new 0 0).1.num_events) := by
  rw [process_nomatch_leading_run wrapScan allSendOk rfl (2 ^ 32 - 1)
    [sampleEvent] Stats.new 0 0 (by decide)]
  decide
